import Mathlib

/-!
Verification of the per-resource download coordinator and filter store of the
`nonebot-plugin-resolver2` repository, shallowly embedded in Lean 4.

The embedding follows `src/nonebot_plugin_resolver2/matchers/bilibili.py`
(rate limiting, per-key locking, link resolution, download/upload pipeline)
and the two generations of `matchers/filter.py` (filter persistence).
Python's global mutable state (the `last_processed` dict, the
`processing_locks` registry) is passed explicitly; `time.time()` becomes an
explicit rational-valued clock; coroutine interleaving becomes a small-step
transition system whose atomic steps are the code segments between genuine
`await` suspension points.
-/

namespace Resolver2

/-! ### Rate/dedup table (`should_process_video` / `mark_as_processed`) -/

/-- Resource key `(group_id, video_id)`, the key type of the
`processing_locks` and `last_processed` dicts in `matchers/bilibili.py`. -/
abbrev ResKey := Int × String

/-- The dedup dict `last_processed : dict[tuple[int, str], float]`, modelled
as an association list from key to last-processed time; lookups see the
first entry for a key. -/
abbrev DedupTable := List (ResKey × ℚ)

/-- Constant `RATE_LIMIT_SECONDS = 300` of `matchers/bilibili.py`. -/
def RATE_LIMIT_SECONDS : ℚ := 300

/-- Python dict lookup on the association-list model: first matching entry. -/
def dictGet (table : DedupTable) (k : ResKey) : Option ℚ :=
  (table.find? (fun kt => decide (kt.1 = k))).map (·.2)

/-- The opportunistic sweep at the top of `should_process_video`: delete every
entry with `current_time - t > RATE_LIMIT_SECONDS`, i.e. keep an entry iff
`now - t ≤ RATE_LIMIT_SECONDS`. -/
def sweepExpired (now : ℚ) (table : DedupTable) : DedupTable :=
  table.filter (fun kt => decide (now - kt.2 ≤ RATE_LIMIT_SECONDS))

/-- Shallow embedding of `should_process_video(group_id, video_id)`
(`matchers/bilibili.py`, lines 85-102).  The global dict and the clock are
explicit; the result is the decision together with the updated dict (the
sweep mutates `last_processed` in place in the source). -/
def should_process_video (group_id : Int) (video_id : String) (now : ℚ)
    (table : DedupTable) : Bool × DedupTable :=
  let key : ResKey := (group_id, video_id)
  let table1 := sweepExpired now table
  match dictGet table1 key with
  | some t => if now - t < RATE_LIMIT_SECONDS then (false, table1) else (true, table1)
  | none => (true, table1)

/-- Shallow embedding of `mark_as_processed(group_id, video_id)`
(`matchers/bilibili.py`, lines 105-108): `last_processed[key] = time.time()`,
an insert-or-overwrite of the entry for `key`. -/
def mark_as_processed (group_id : Int) (video_id : String) (now : ℚ)
    (table : DedupTable) : DedupTable :=
  let key : ResKey := (group_id, video_id)
  (key, now) :: table.filter (fun kt => decide (kt.1 ≠ key))

/-! ### Message events -/

/-- OneBot message event, reduced to what the handlers inspect:
`isinstance(event, GroupMessageEvent)` and the id fields. -/
inductive PyEvent
  | group (group_id : Int) (user_id : Int)
  | privateMsg (user_id : Int)
  deriving DecidableEq

/-- Scope id used to build the resource key, from
`event.group_id if isinstance(event, GroupMessageEvent) else 0`
(`matchers/bilibili.py`, lines 306 and 379). -/
def handler_group_id : PyEvent → Int
  | .group gid _ => gid
  | .privateMsg _ => 0

/-! ### Media assembly pipeline (`download_and_send_video`) -/

/-- Fields of the parsed `video_info` that `download_and_send_video` reads. -/
structure VideoInfo where
  video_duration : Nat
  video_url : String
  audio_url : Option String
  deriving DecidableEq

/-- Outcome of one `matcher.send` call: success, or an OneBot `ActionFailed`
exception whose info dict carries a `message` string. -/
inductive SendOutcome
  | ok
  | actionFailed (message : String)
  deriving DecidableEq

/-- Exception that `download_and_send_video` can propagate to its caller. -/
inductive PipeError
  | actionFailed (message : String)
  deriving DecidableEq

/-- The thumbnail-error signature suffix checked by
`message.endswith(".png'")`, spelled by code points
(46 112 110 103 39 = dot, p, n, g, single quote). -/
def thumbErrorSuffix : String := String.mk ([46, 112, 110, 103, 39].map Char.ofNat)

/-- Check of the recoverable upload-failure signature, as a suffix test on
the character lists. -/
def isThumbError (message : String) : Bool :=
  List.isSuffixOf thumbErrorSuffix.data message.data

/-- Observable outcome of `download_and_send_video`: the returned value or the
propagated exception, plus counts of performed effects (stream downloads,
H.264 re-encodes, upload attempts). -/
structure DsvOutcome where
  result : Except PipeError Bool
  downloadOps : Nat
  encodeOps : Nat
  sendAttempts : Nat

/-- Shallow embedding of `download_and_send_video` (`matchers/bilibili.py`,
lines 155-198).  `DURATION_MAXIMUM` comes from the plugin config module
(which is not part of the analysed sources), so it is a parameter; the
cache-file existence test and the results of the at most two `matcher.send`
calls are oracles. -/
def download_and_send_video (DURATION_MAXIMUM : Nat) (video_info : VideoInfo)
    (cache_exists : Bool) (send1 send2 : SendOutcome) : DsvOutcome :=
  if video_info.video_duration > DURATION_MAXIMUM then
    { result := .ok false, downloadOps := 0, encodeOps := 0, sendAttempts := 0 }
  else
    let downloadOps :=
      if cache_exists then 0
      else match video_info.audio_url with
        | some _ => 2       -- separate video and audio streams, then merge
        | none => 1         -- single combined stream
    match send1 with
    | .ok =>
      { result := .ok true, downloadOps := downloadOps, encodeOps := 0,
        sendAttempts := 1 }
    | .actionFailed message =>
      if isThumbError message then
        -- re-encode to H.264 once and retry the upload once; a failure of the
        -- retried send is not caught
        match send2 with
        | .ok =>
          { result := .ok true, downloadOps := downloadOps, encodeOps := 1,
            sendAttempts := 2 }
        | .actionFailed m2 =>
          { result := .error (.actionFailed m2), downloadOps := downloadOps,
            encodeOps := 1, sendAttempts := 2 }
      else
        -- `raise` re-raises the original exception unchanged
        { result := .error (.actionFailed message), downloadOps := downloadOps,
          encodeOps := 0, sendAttempts := 1 }

/-! ### Resolution pipeline (`parse_video_id_from_text`)

The `PATTERNS` regexes of `matchers/bilibili.py` (lines 64-72) are embedded
as explicit character-list matchers.  All these patterns are deterministic
under greedy matching (every quantified or optional part is followed only by
optional parts or by literals that its own character class cannot begin), so
left-to-right greedy matching with a leftmost starting-position scan agrees
with Python `re.search`. -/

/-- Character class `[1-9a-zA-Z]` of the BV-id patterns. -/
def isBvChar (c : Char) : Bool := c.isAlpha || (c.isDigit && decide (c ≠ '0'))

/-- Character class `[A-Za-z\d\._?%&+\-=/#]` of the URL patterns. -/
def isUrlChar (c : Char) : Bool :=
  c.isAlphanum || ['.', '_', '?', '%', '&', '+', '-', '=', '/', '#'].contains c

/-- ASCII whitespace matched by the regex `\s`. -/
def isPySpace (c : Char) : Bool :=
  [' ', '\t', '\n', '\r', Char.ofNat 11, Char.ofNat 12].contains c

/-- Consume a literal character sequence. -/
def stripLit : List Char → List Char → Option (List Char)
  | [], l => some l
  | _ :: _, [] => none
  | p :: ps, c :: cs => if c = p then stripLit ps cs else none

/-- Consume exactly `n` characters satisfying `p` (a `{n}` quantifier). -/
def takeExact : Nat → (Char → Bool) → List Char → Option (List Char × List Char)
  | 0, _, l => some ([], l)
  | _ + 1, _, [] => none
  | n + 1, p, c :: cs =>
    if p c then (takeExact n p cs).map (fun tr => (c :: tr.1, tr.2)) else none

/-- Greedily consume at most `n` characters satisfying `p`
(a `{0,n}` quantifier). -/
def takeUpTo : Nat → (Char → Bool) → List Char → List Char × List Char
  | 0, _, l => ([], l)
  | _ + 1, _, [] => ([], [])
  | n + 1, p, c :: cs =>
    if p c then
      let tr := takeUpTo n p cs
      (c :: tr.1, tr.2)
    else ([], c :: cs)

/-- Greedily consume at most one character satisfying `p` (a `?` part). -/
def optOne (p : Char → Bool) : List Char → List Char × List Char
  | [] => ([], [])
  | c :: cs => if p c then ([c], cs) else ([], c :: cs)

/-- First alternative of an optional alternation that matches as a literal
prefix; none of the five alternatives here overlaps with what follows them,
so first-match agrees with the regex engine. -/
def tryAlts : List (List Char) → List Char → List Char × List Char
  | [], l => ([], l)
  | a :: as, l =>
    match stripLit a l with
    | some rest => (a, rest)
    | none => tryAlts as l

/-- Match data: the whole match and the two capture groups (`none` when a
group did not participate, like Python's `group(i) is None`). -/
structure ReMatch where
  group0 : List Char
  group1 : List Char
  group2 : Option (List Char)
  deriving DecidableEq

/-- Anchored match of `(BV[1-9a-zA-Z]{10})(?:\s)?(\d{1,3})?`. -/
def matchAtBV (l : List Char) : Option ReMatch := do
  let l1 ← stripLit ['B', 'V'] l
  let (ten, l2) ← takeExact 10 isBvChar l1
  let (sp, l3) := optOne isPySpace l2
  let (digs, _) := takeUpTo 3 Char.isDigit l3
  let g1 := ['B', 'V'] ++ ten
  some { group0 := g1 ++ sp ++ digs, group1 := g1,
         group2 := if digs.isEmpty then none else some digs }

/-- Anchored match of `av(\d{6,})(?:\s)?(\d{1,3})?`. -/
def matchAtAv (l : List Char) : Option ReMatch := do
  let l1 ← stripLit ['a', 'v'] l
  let (digs, l2) := l1.span Char.isDigit
  if digs.length < 6 then none
  else
    let (sp, l3) := optOne isPySpace l2
    let (digs2, _) := takeUpTo 3 Char.isDigit l3
    some { group0 := ['a', 'v'] ++ digs ++ sp ++ digs2, group1 := digs,
           group2 := if digs2.isEmpty then none else some digs2 }

/-- Anchored match of `/(BV[1-9a-zA-Z]{10})()`. -/
def matchAtSlashBV (l : List Char) : Option ReMatch := do
  let l1 ← stripLit ['/', 'B', 'V'] l
  let (ten, _) ← takeExact 10 isBvChar l1
  some { group0 := ['/', 'B', 'V'] ++ ten, group1 := ['B', 'V'] ++ ten,
         group2 := some [] }

/-- Anchored match of `/av(\d{6,})()`. -/
def matchAtSlashAv (l : List Char) : Option ReMatch := do
  let l1 ← stripLit ['/', 'a', 'v'] l
  let (digs, _) := l1.span Char.isDigit
  if digs.length < 6 then none
  else some { group0 := ['/', 'a', 'v'] ++ digs, group1 := digs,
              group2 := some [] }

/-- Anchored match of `https?://<domain>[A-Za-z\d\._?%&+\-=/#]+()()`, used
for the `b23.tv/` and `bili2233.cn/` short-link patterns. -/
def matchAtUrl (domain : List Char) (l : List Char) : Option ReMatch := do
  let l1 ← stripLit ['h', 't', 't', 'p'] l
  let (sp, l2) := optOne (fun c => decide (c = 's')) l1
  let l3 ← stripLit [':', '/', '/'] l2
  let l4 ← stripLit domain l3
  let (us, _) := l4.span isUrlChar
  if us.isEmpty then none
  else some { group0 := ['h', 't', 't', 'p'] ++ sp ++ [':', '/', '/'] ++ domain ++ us,
              group1 := [], group2 := some [] }

/-- Anchored match of
`https?://(?:space|www|live|m|t)?\.?bilibili\.com/[A-Za-z\d\._?%&+\-=/#]+()()`. -/
def matchAtBilibili (l : List Char) : Option ReMatch := do
  let l1 ← stripLit ['h', 't', 't', 'p'] l
  let (sp, l2) := optOne (fun c => decide (c = 's')) l1
  let l3 ← stripLit [':', '/', '/'] l2
  let (alt, l4) := tryAlts
    [['s', 'p', 'a', 'c', 'e'], ['w', 'w', 'w'], ['l', 'i', 'v', 'e'], ['m'], ['t']] l3
  let (dot, l5) := optOne (fun c => decide (c = '.')) l4
  let dom : List Char := ['b', 'i', 'l', 'i', 'b', 'i', 'l', 'i', '.', 'c', 'o', 'm', '/']
  let l6 ← stripLit dom l5
  let (us, _) := l6.span isUrlChar
  if us.isEmpty then none
  else some { group0 := ['h', 't', 't', 'p'] ++ sp ++ [':', '/', '/'] ++ alt ++ dot
                ++ dom ++ us,
              group1 := [], group2 := some [] }

/-- Anchored match of `(?:&|\?)p=(\d{1,3})`, returning the digit group. -/
def matchAtPageParam (l : List Char) : Option (List Char) :=
  match l with
  | [] => none
  | c :: cs =>
    if c = '&' ∨ c = '?' then
      match stripLit ['p', '='] cs with
      | none => none
      | some l1 =>
        let (digs, _) := takeUpTo 3 Char.isDigit l1
        if digs.isEmpty then none else some digs
    else none

/-- Leftmost search: try an anchored matcher at every position, like
`re.search`. -/
def searchFrom {α : Type} (f : List Char → Option α) : List Char → Option α
  | [] => f []
  | c :: cs =>
    match f (c :: cs) with
    | some m => some m
    | none => searchFrom f cs

/-- Substring containment test, modelling Python's `i in url`. -/
def containsSub (pat : List Char) : List Char → Bool
  | [] => pat.isEmpty
  | c :: cs => List.isPrefixOf pat (c :: cs) || containsSub pat cs

/-- Value of a decimal digit string, as Python `int` on a matched `\d+`
group. -/
def digitsToNat (l : List Char) : Nat :=
  l.foldl (fun n c => 10 * n + (c.toNat - 48)) 0

/-- The five keywords the Bilibili matchers register (`r_keywords` call in
`matchers/bilibili.py`, lines 36 and 57); also the keys of `PATTERNS`. -/
inductive BiliKeyword
  | BV
  | av
  | b23
  | bili2233
  | bilibili
  deriving DecidableEq

/-- Regex search dispatch `PATTERNS[keyword].search(text)`. -/
def keywordSearch : BiliKeyword → List Char → Option ReMatch
  | .BV => searchFrom matchAtBV
  | .av => searchFrom matchAtAv
  | .b23 => searchFrom (matchAtUrl ['b', '2', '3', '.', 't', 'v', '/'])
  | .bili2233 => searchFrom
      (matchAtUrl ['b', 'i', 'l', 'i', '2', '2', '3', '3', '.', 'c', 'n', '/'])
  | .bilibili => searchFrom matchAtBilibili

/-- Short-link keywords, `keyword in ("b23", "bili2233")`. -/
def isShortlink : BiliKeyword → Bool
  | .b23 => true
  | .bili2233 => true
  | _ => false

/-- Return value of `parse_video_id_from_text`:
`tuple[url, video_id, page_num, video_type]`. -/
structure ParsedVideoRef where
  url : String
  video_id : String
  page_num : Nat
  video_type : String
  deriving DecidableEq

/-- The embedded-id override step (`matchers/bilibili.py`, lines 137-145):
for the first of `"/BV"`, `"/av"` contained in the url, run that pattern and,
on success, replace id and kind; otherwise fall back to the keyword-implied
kind (default `"BV"`). -/
def applyEmbeddedIdOverride (keyword : BiliKeyword) (url video_id0 : String) :
    String × String :=
  if containsSub ['/', 'B', 'V'] url.data then
    match searchFrom matchAtSlashBV url.data with
    | some m => (String.mk m.group1, "BV")
    | none => (video_id0, "BV")
  else if containsSub ['/', 'a', 'v'] url.data then
    match searchFrom matchAtSlashAv url.data with
    | some m => (String.mk m.group1, "av")
    | none => (video_id0, "BV")
  else
    (video_id0, if keyword = .av then "av" else "BV")

/-- The page-number step (`matchers/bilibili.py`, lines 147-150): the matched
group 2 if truthy else 1, overridden by a `p=` query parameter in the final
url. -/
def resolvePageNum (group2 : Option (List Char)) (url : String) : Nat :=
  let base :=
    match group2 with
    | some ds => if ds.isEmpty then 1 else digitsToNat ds
    | none => 1
  match searchFrom matchAtPageParam url.data with
  | some ds => digitsToNat ds
  | none => base

/-- Shallow embedding of `parse_video_id_from_text(text, keyword)`
(`matchers/bilibili.py`, lines 114-152).  The one redirect-resolution hop
`get_redirect_url` is an oracle `redirect`. -/
def parse_video_id_from_text (redirect : String → String) (text : String)
    (keyword : BiliKeyword) : Option ParsedVideoRef :=
  match keywordSearch keyword text.data with
  | none => none
  | some m =>
    let url0 : String := String.mk m.group0
    let video_id0 : String := String.mk m.group1
    if isShortlink keyword then
      let url := redirect url0
      if url = url0 then none
      else
        some { url := url,
               video_id := (applyEmbeddedIdOverride keyword url video_id0).1,
               page_num := resolvePageNum m.group2 url,
               video_type := (applyEmbeddedIdOverride keyword url video_id0).2 }
    else
      some { url := url0,
             video_id := (applyEmbeddedIdOverride keyword url0 video_id0).1,
             page_num := resolvePageNum m.group2 url0,
             video_type := (applyEmbeddedIdOverride keyword url0 video_id0).2 }

/-- Concrete short-link text for the C5 counterexample. -/
def cxText : String := "https://b23.tv/abc"

/-- Concrete resolved url for the C5 counterexample: it contains the
substring `/BV` (with no complete BV id after it) and also a complete
embedded `/av` id. -/
def cxUrl : String := "https://www.bilibili.com/BV-oops/av1234567"

/-- Redirect oracle for the C5 counterexample. -/
def cxRedirect : String → String := fun _ => cxUrl

/-! ### Filter store (`matchers/filter.py`, old and new generation)

Claim C8's sources point at the new generation
(`src/src/nonebot_plugin_resolver2/matchers/filter.py`); claim C9 compares
the old generation's `is_not_in_disabled_groups_by_source_alias` with the
new one's. -/

/-- The source enum `Literal["bilibili", "douyin", "ytb"]`. -/
inductive SourceType
  | bilibili
  | douyin
  | ytb
  deriving DecidableEq

/-- `SOURCE_TYPES` of the new generation. -/
def SOURCE_TYPES : List SourceType := [.bilibili, .douyin, .ytb]

/-- JSON key of a source, as serialised by pydantic for the `Literal` enum. -/
def sourceName : SourceType → String
  | .bilibili => "bilibili"
  | .douyin => "douyin"
  | .ytb => "ytb"

/-- Validation of a `filter_dict` key: it must be one of the literal source
names. -/
def parseSourceName (s : String) : Option SourceType :=
  if s = "bilibili" then some .bilibili
  else if s = "douyin" then some .douyin
  else if s = "ytb" then some .ytb
  else none

/-- `FilterItem`: the per-source list of disabled groups. -/
structure FilterItem where
  disabled_groups : List Int
  deriving DecidableEq

/-- `FilterConfig` (new generation): `filter_dict` is a dict keyed by
source, modelled as an association list, plus the two group lists. -/
structure FilterConfig where
  filter_dict : List (SourceType × FilterItem)
  do_not_download_media_groups : List Int
  bili_auto_download_when_disabled_groups : List Int
  deriving DecidableEq

/-- Dict lookup in `filter_dict` (first matching entry). -/
def configLookup (d : List (SourceType × FilterItem)) (src : SourceType) :
    Option FilterItem :=
  (d.find? (fun e => decide (e.1 = src))).map (·.2)

/-- Observation `filter_config.filter_dict.get(source, FilterItem()).disabled_groups`
used by the rules. -/
def getSourceDisabled (c : FilterConfig) (src : SourceType) : List Int :=
  ((configLookup c.filter_dict src).getD ⟨[]⟩).disabled_groups

/-- On-disk image of `FilterConfig` as written by `model_dump_json`:
string keys and plain lists. -/
structure StoredFilterConfig where
  filter_dict : List (String × List Int)
  do_not_download_media_groups : List Int
  bili_auto_download_when_disabled_groups : List Int
  deriving DecidableEq

/-- `filter_config.model_dump_json()`, the serialisation used by
`save_disabled_groups`. -/
def dumpFilterConfig (c : FilterConfig) : StoredFilterConfig :=
  { filter_dict := c.filter_dict.map (fun e => (sourceName e.1, e.2.disabled_groups)),
    do_not_download_media_groups := c.do_not_download_media_groups,
    bili_auto_download_when_disabled_groups :=
      c.bili_auto_download_when_disabled_groups }

/-- Deserialisation of the stored `filter_dict`
(`FilterConfig.model_validate_json`): fails on an unknown source key. -/
def validateFilterDict :
    List (String × List Int) → Option (List (SourceType × FilterItem))
  | [] => some []
  | (s, gs) :: rest =>
    match parseSourceName s, validateFilterDict rest with
    | some src, some tail => some ((src, ⟨gs⟩) :: tail)
    | _, _ => none

/-- `FilterConfig.model_validate_json` on the stored document. -/
def validateFilterConfig (s : StoredFilterConfig) : Option FilterConfig :=
  (validateFilterDict s.filter_dict).map (fun d =>
    { filter_dict := d,
      do_not_download_media_groups := s.do_not_download_media_groups,
      bili_auto_download_when_disabled_groups :=
        s.bili_auto_download_when_disabled_groups })

/-- Default `FilterConfig()` of the new generation: one fresh `FilterItem`
per source. -/
def defaultFilterConfig : FilterConfig :=
  { filter_dict := SOURCE_TYPES.map (fun src => (src, ⟨[]⟩)),
    do_not_download_media_groups := [],
    bili_auto_download_when_disabled_groups := [] }

/-- One `config.filter_dict.setdefault(source, FilterItem())` call: a dict
`setdefault` appends at the end when the key is missing. -/
def setdefaultStep (d : List (SourceType × FilterItem)) (src : SourceType) :
    List (SourceType × FilterItem) :=
  match configLookup d src with
  | some _ => d
  | none => d ++ [(src, ⟨[]⟩)]

/-- The `setdefault` loop over `SOURCE_TYPES` at the end of
`load_filter_config` (new generation). -/
def setdefaultSources (c : FilterConfig) : FilterConfig :=
  { c with filter_dict := SOURCE_TYPES.foldl setdefaultStep c.filter_dict }

/-- Shallow embedding of `load_filter_config` (new generation,
`src/src/.../matchers/filter.py`, lines 50-65): `none` models a missing
file (fresh default written and returned); a validation failure resets to
the default; then missing sources are set-defaulted. -/
def load_filter_config (file : Option StoredFilterConfig) : FilterConfig :=
  match file with
  | none => defaultFilterConfig
  | some s =>
    match validateFilterConfig s with
    | some c => setdefaultSources c
    | none => setdefaultSources defaultFilterConfig

/-- Shallow embedding of `load_or_initialize_set` (lines 41-47):
`set(json.loads(...))` of the stored list; empty when the file is missing. -/
def load_or_initialize_set (file : Option (List Int)) : Finset Int :=
  match file with
  | none => ∅
  | some l => l.toFinset

/-- Shallow embedding of `save_disabled_groups` (new generation, lines
68-73): the pair of documents written to the two data files,
`json.dumps(list(disabled_group_set))` and
`filter_config.model_dump_json()`.  Python's `list(set)` enumerates in an
unspecified order; the model picks the sorted enumeration. -/
def save_disabled_groups (disabled_group_set : Finset Int)
    (filter_config : FilterConfig) : List Int × StoredFilterConfig :=
  (disabled_group_set.sort (· ≤ ·), dumpFilterConfig filter_config)

/-- Python exception kind raised by a missing attribute. -/
inductive PyError
  | attributeError
  deriving DecidableEq

/-- Python attribute call `s.items()` on a `str` value: `str` has no
`items` method, so every call raises `AttributeError`.  The result type is
phrased at the alias-table element type so the surrounding loop can be
written down; no value is ever produced. -/
def pyStrItems (s : String) : Except PyError (List (SourceType × List String)) :=
  .error .attributeError

/-- The alias table, `source_alias` in the old generation and
`SOURCE_ALIASES` in the new one (identical contents). -/
def SOURCE_ALIASES : List (SourceType × List String) :=
  [(.bilibili, ["bilibili", "b23", "b站", "B站"]),
   (.douyin, ["douyin", "抖音", "v.douyin"]),
   (.ytb, ["ytb", "油管", "youtube", "youtu.be"])]

/-- `is_not_in_disabled_groups_by_source` (textually identical in both
generations): private chats always pass; a group chat passes iff its group
id is not in the per-source disabled list. -/
def is_not_in_disabled_groups_by_source (filter_config : FilterConfig)
    (event : PyEvent) (source : SourceType) : Bool :=
  match event with
  | .privateMsg _ => true
  | .group gid _ => decide (gid ∉ getSourceDisabled filter_config source)

/-- The alias-matching loop body shared by both generations: the first table
entry whose alias list contains the argument decides via
`is_not_in_disabled_groups_by_source`; fall through to `True`. -/
def aliasLoop (filter_config : FilterConfig) (event : PyEvent) (a : String) :
    List (SourceType × List String) → Bool
  | [] => true
  | (source, aliases) :: rest =>
    if aliases.contains a then
      is_not_in_disabled_groups_by_source filter_config event source
    else aliasLoop filter_config event a rest

/-- Old-generation `is_not_in_disabled_groups_by_source_alias`
(`src/nonebot_plugin_resolver2/matchers/filter.py`, lines 83-87).  Its
parameter is also named `source_alias` and shadows the module-level alias
dict, so the loop header `for source, aliases in source_alias.items():`
calls `.items()` on the string argument and raises `AttributeError` before
any iteration. -/
def is_not_in_disabled_groups_by_source_alias_old (filter_config : FilterConfig)
    (event : PyEvent) (source_alias : String) : Except PyError Bool :=
  (pyStrItems source_alias).map (aliasLoop filter_config event source_alias)

/-- New-generation `is_not_in_disabled_groups_by_source_alias`
(`src/src/nonebot_plugin_resolver2/matchers/filter.py`, lines 94-98): the
parameter is renamed to `alias`, so the loop iterates the module-level
`SOURCE_ALIASES` table. -/
def is_not_in_disabled_groups_by_source_alias_new (filter_config : FilterConfig)
    (event : PyEvent) (a : String) : Bool :=
  aliasLoop filter_config event a SOURCE_ALIASES

/-! ### Concurrency model of the handler bodies

Claims C1, C3 and C7 are about concurrent invocations of the two message
handlers (`bilibili.handle`, lines 285-360, and
`bilibili_auto_download.handle`, lines 363-401).  Under asyncio, a handler
runs as one cooperative task that can only be interleaved at `await`
suspension points, and acquiring a *free* `asyncio.Lock` does not suspend.
Hence the code from the dedup check through (for the full handler) the
`is_processing` test, and through lock acquisition, the double-check and
`mark_as_processed` when the lock is free, forms one atomic segment; each
awaited call inside the guarded section is a further atomic step.  The model
fixes one resource key `(gid, vid)` and lets any number of tasks for that
key interleave arbitrarily at those boundaries, with an explicit clock. -/

/-- Which handler a task runs: the full `bilibili` handler (with the
`is_processing` early return, lines 313-318) or `bilibili_auto_download`
(with no such check, lines 385-401). -/
inductive HandlerKind
  | full
  | auto
  deriving DecidableEq

/-- The awaited calls inside the lock-guarded section, in source order.
Full handler: intro message send (line 337), metadata fetch (lines 340-343),
metadata segments send (lines 346-357), `download_and_send_video`
(line 360).  Auto-download handler: metadata fetch (lines 395-398),
`download_and_send_video` (line 401).  `mark_as_processed` is *not* among
them: it runs synchronously at guarded-section entry, before all of them
(lines 326 and 392). -/
inductive WorkStep
  | sendIntro
  | fetchInfo
  | sendSegments
  | downloadSend
  deriving DecidableEq

/-- Guarded work of each handler kind. -/
def workFor : HandlerKind → List WorkStep
  | .full => [.sendIntro, .fetchInfo, .sendSegments, .downloadSend]
  | .auto => [.fetchInfo, .downloadSend]

/-- Control state of one handler invocation. -/
inductive Phase
  | ready
  | waiting
  | inside (stepIdx : Nat) (remaining : List WorkStep) (tMark : ℚ)
  | doneDropped
  | doneLockBusy
  | doneDouble
  | doneOk (tMark : ℚ)
  | doneRaised (tMark : ℚ)
  deriving DecidableEq

/-- One handler invocation: its handler, the work step at which its guarded
work raises (if any), and its control state. -/
structure HTask where
  kind : HandlerKind
  raiseAt : Option Nat
  phase : Phase
  deriving DecidableEq

/-- Global state: the tasks (all referencing the one fixed resource key),
that key's `processing_locks` entry modelled as an `asyncio.Lock` — `lock`
is the current holder (so `locked()` is `lock.isSome`) and `waiters` is the
FIFO queue of suspended acquirers (`Lock._waiters`) — plus the
`last_processed` dict and the clock.  Real `asyncio.Lock` semantics:
`acquire()` succeeds immediately only when the lock is unlocked *and* no
waiter is pending; otherwise the caller appends itself to the queue and
suspends.  `release()` merely unlocks and wakes the first waiter, which
acquires when next scheduled; a caller arriving between the release and
that handoff sees `locked() == False` but still queues. -/
structure SysState where
  tasks : List HTask
  lock : Option Nat
  waiters : List Nat
  table : DedupTable
  now : ℚ
  deriving DecidableEq

/-- Scheduler actions: let time pass, or run the next atomic segment of task
`i`. -/
inductive Act
  | tick (d : ℚ)
  | run (i : Nat)
  deriving DecidableEq

/-- Lock acquisition followed synchronously by the double-check
(`if not should_process_video(...): return` on lines 322 / 388) and
`mark_as_processed` (lines 326 / 392).  On a failed double-check the
`async with` scope releases the lock on the early return, so the net lock
state is again free. -/
def acquireAndEnter (gid : Int) (vid : String) (i : Nat) (t : HTask)
    (s : SysState) (table1 : DedupTable) (ws : List Nat) : SysState :=
  if (should_process_video gid vid s.now table1).1 then
    { s with lock := some i, waiters := ws,
             table := mark_as_processed gid vid s.now
               (should_process_video gid vid s.now table1).2,
             tasks := s.tasks.set i
               { t with phase := .inside 0 (workFor t.kind) s.now } }
  else
    { s with lock := none, waiters := ws,
             table := (should_process_video gid vid s.now table1).2,
             tasks := s.tasks.set i { t with phase := .doneDouble } }

/-- Run the next atomic segment of task `i`; `none` when `i` cannot step
(no such task, already finished, or suspended on the lock). -/
def stepTask (gid : Int) (vid : String) (s : SysState) (i : Nat) :
    Option SysState :=
  match s.tasks[i]? with
  | none => none
  | some t =>
    match t.phase with
    | .ready =>
      -- the atomic segment starting at the dedup check (lines 309 / 382)
      if (should_process_video gid vid s.now s.table).1 then
        match t.kind with
        | .full =>
          match s.lock with
          | some _ =>
            -- `is_processing` reads `locked() == True` and returns at once
            some { s with table := (should_process_video gid vid s.now s.table).2,
                          tasks := s.tasks.set i { t with phase := .doneLockBusy } }
          | none =>
            match s.waiters with
            | [] =>
              -- unlocked with no pending waiter: `acquire()` returns at once
              some (acquireAndEnter gid vid i t s
                (should_process_video gid vid s.now s.table).2 s.waiters)
            | _ :: _ =>
              -- unlocked but a waiter is pending (release-to-handoff
              -- window): `is_processing` sees `locked() == False`, yet
              -- `acquire()` queues behind the pending waiter and suspends
              some { s with table := (should_process_video gid vid s.now s.table).2,
                            waiters := s.waiters ++ [i],
                            tasks := s.tasks.set i { t with phase := .waiting } }
        | .auto =>
          match s.lock, s.waiters with
          | none, [] =>
            some (acquireAndEnter gid vid i t s
              (should_process_video gid vid s.now s.table).2 s.waiters)
          | _, _ =>
            -- no `is_processing` check: `async with` queues and suspends
            some { s with table := (should_process_video gid vid s.now s.table).2,
                          waiters := s.waiters ++ [i],
                          tasks := s.tasks.set i { t with phase := .waiting } }
      else
        some { s with table := (should_process_video gid vid s.now s.table).2,
                      tasks := s.tasks.set i { t with phase := .doneDropped } }
    | .waiting =>
      -- a suspended acquirer resumes only once the lock is unlocked and it
      -- is the first waiter (FIFO handoff by `release()`)
      match s.lock with
      | some _ => none
      | none =>
        match s.waiters with
        | [] => none
        | j :: rest =>
          if j = i then some (acquireAndEnter gid vid i t s s.table rest)
          else none
    | .inside idx remaining tM =>
      match remaining with
      | [] =>
        -- guarded work finished; `async with` releases on normal exit
        some { s with lock := none,
                      tasks := s.tasks.set i { t with phase := .doneOk tM } }
      | _ :: rest =>
        if t.raiseAt = some idx then
          -- this awaited call raises; `async with` releases while the
          -- exception propagates
          some { s with lock := none,
                        tasks := s.tasks.set i { t with phase := .doneRaised tM } }
        else
          some
            { s with
              tasks := s.tasks.set i
                { t with phase := Phase.inside (idx + 1) rest tM } }
    | .doneDropped => none
    | .doneLockBusy => none
    | .doneDouble => none
    | .doneOk _ => none
    | .doneRaised _ => none

/-- One scheduler action. -/
def sysStep (gid : Int) (vid : String) (s : SysState) : Act → Option SysState
  | .tick d => if 0 ≤ d then some { s with now := s.now + d } else none
  | .run i => stepTask gid vid s i

/-- Execute a list of scheduler actions. -/
def execActs (gid : Int) (vid : String) (s : SysState) :
    List Act → Option SysState
  | [] => some s
  | a :: rest =>
    match sysStep gid vid s a with
    | none => none
    | some s1 => execActs gid vid s1 rest

/-- Reachability from an initial state. -/
def SysReachable (gid : Int) (vid : String) (s0 s : SysState) : Prop :=
  ∃ acts, execActs gid vid s0 acts = some s

/-- Initial condition: the lock free with an empty waiter queue, every task
not yet started. -/
def InitOk (s0 : SysState) : Prop :=
  s0.lock = none ∧ s0.waiters = [] ∧ ∀ t ∈ s0.tasks, t.phase = Phase.ready

/-- A task currently inside the lock-guarded section. -/
def Phase.isInGuard : Phase → Bool
  | .inside _ _ _ => true
  | _ => false

/-- A task that has exited its handler (on any exit path). -/
def Phase.isExited : Phase → Bool
  | .doneDropped => true
  | .doneLockBusy => true
  | .doneDouble => true
  | .doneOk _ => true
  | .doneRaised _ => true
  | _ => false

/-- The time at which a task executed `mark_as_processed`, available while
it is inside the guarded section and after it finished or raised. -/
def Phase.markTime : Phase → Option ℚ
  | .inside _ _ tM => some tM
  | .doneOk tM => some tM
  | .doneRaised tM => some tM
  | _ => none

/-- Lock consistency: the lock is held exactly by the tasks inside the
guarded section. -/
def LockInv (s : SysState) : Prop :=
  (∀ i : Nat, s.lock = some i →
    ∃ t : HTask, s.tasks[i]? = some t ∧ t.phase.isInGuard = true) ∧
  (∀ (i : Nat) (t : HTask), s.tasks[i]? = some t → t.phase.isInGuard = true →
    s.lock = some i)

/-- Mark persistence: a task's mark is in the past, and while its window is
open the dict holds an entry for the key at least as recent as the mark. -/
def MarkInv (gid : Int) (vid : String) (s : SysState) : Prop :=
  ∀ (i : Nat) (t : HTask), s.tasks[i]? = some t →
    ∀ tM, t.phase.markTime = some tM →
    tM ≤ s.now ∧ (s.now - tM < RATE_LIMIT_SECONDS →
      ∃ tt, dictGet s.table (gid, vid) = some tt ∧ tM ≤ tt ∧ tt ≤ s.now)

/-- Conjunction of the step invariants. -/
def StepInvs (gid : Int) (vid : String) (s : SysState) : Prop :=
  LockInv s ∧ MarkInv gid vid s

/-- Initial state of the C1 counterexample trace: two auto-download
invocations for the same key, neither started. -/
def cxInitC1 : SysState :=
  { tasks := [⟨.auto, none, .ready⟩, ⟨.auto, none, .ready⟩],
    lock := none, waiters := [], table := [], now := 0 }

/-- Initial state of the second C1 counterexample trace: two auto-download
invocations and one full-handler invocation; the trace drives the full one
into the release-to-handoff window. -/
def cxInitHandoff : SysState :=
  { tasks := [⟨.auto, some 99, .ready⟩, ⟨.auto, some 99, .ready⟩,
      ⟨.full, some 99, .ready⟩],
    lock := none, waiters := [], table := [], now := 0 }

/-- Concrete state with the lock held, for the C1 witness: one full-handler
invocation about to run its check segment. -/
def cxHeldInit : SysState :=
  { tasks := [⟨.full, none, .ready⟩], lock := some 9, waiters := [],
    table := [], now := 0 }

/-- Result of the full-handler check segment run from `cxHeldInit`: it
finishes immediately via `is_processing`. -/
def cxHeldNext : SysState :=
  { tasks := [⟨.full, none, .doneLockBusy⟩], lock := some 9, waiters := [],
    table := [], now := 0 }

/-- Initial state of the C7 witness trace: one auto-download invocation
whose first guarded work step raises. -/
def cxInitC7 : SysState :=
  { tasks := [⟨.auto, some 0, .ready⟩], lock := none, waiters := [],
    table := [], now := 0 }

/-- Final state of the C7 witness trace. -/
def cxFinalC7 : SysState :=
  { tasks := [⟨.auto, some 0, .doneRaised 0⟩], lock := none, waiters := [],
    table := [((0, "BV1xx411c7mD"), 0)], now := 0 }

/-- Initial state of the C3 witness trace: one full-handler invocation whose
metadata fetch (work step index 1) raises. -/
def cxInitC3 : SysState :=
  { tasks := [⟨.full, some 1, .ready⟩], lock := none, waiters := [],
    table := [], now := 0 }

/-- Final state of the C3 witness trace, 100 s after the mark, with the task
having raised during the metadata fetch. -/
def cxFinalC3 : SysState :=
  { tasks := [⟨.full, some 1, .doneRaised 0⟩], lock := none, waiters := [],
    table := [((0, "BV1xx411c7mD"), 0)], now := 100 }

/-- Initial state of the C1 amended-claim witness: one invocation of each
handler. -/
def cxInitMix : SysState :=
  { tasks := [⟨.full, none, .ready⟩, ⟨.auto, none, .ready⟩],
    lock := none, waiters := [], table := [], now := 0 }

/-- Final state of the C1 amended-claim witness trace: the full-handler task
is inside the guarded section, the auto-download task was dropped by the
dedup check. -/
def cxFinalMix : SysState :=
  { tasks := [⟨.full, none,
      .inside 0 [.sendIntro, .fetchInfo, .sendSegments, .downloadSend] 0⟩,
      ⟨.auto, none, .doneDropped⟩],
    lock := some 0, waiters := [], table := [((0, "BV1xx411c7mD"), 0)],
    now := 0 }

/-! ### Theorems -/

theorem should_process_video_snd (g : Int) (v : String) (now : ℚ)
    (table : DedupTable) :
    (should_process_video g v now table).2 = sweepExpired now table := by
  unfold should_process_video
  cases h : dictGet (sweepExpired now table) (g, v) with
  | none => simp [h]
  | some t =>
    by_cases hlt : now - t < RATE_LIMIT_SECONDS <;> simp [h, hlt]

theorem sweepExpired_cons (now : ℚ) (kt : ResKey × ℚ) (rest : DedupTable) :
    sweepExpired now (kt :: rest) =
      if now - kt.2 ≤ RATE_LIMIT_SECONDS then kt :: sweepExpired now rest
      else sweepExpired now rest := by
  simp only [sweepExpired, List.filter_cons, decide_eq_true_eq]

theorem dictGet_cons_of_eq {kt : ResKey × ℚ} {k : ResKey} (h : kt.1 = k)
    (table : DedupTable) : dictGet (kt :: table) k = some kt.2 := by
  simp [dictGet, List.find?_cons, h]

theorem dictGet_cons_of_ne {kt : ResKey × ℚ} {k : ResKey} (h : kt.1 ≠ k)
    (table : DedupTable) : dictGet (kt :: table) k = dictGet table k := by
  simp [dictGet, List.find?_cons, h]

theorem dictGet_cons_self (k : ResKey) (t : ℚ) (table : DedupTable) :
    dictGet ((k, t) :: table) k = some t :=
  dictGet_cons_of_eq rfl table

theorem dictGet_sweep_of_fresh {table : DedupTable} {k : ResKey} {t now : ℚ}
    (hget : dictGet table k = some t) (hfresh : now - t ≤ RATE_LIMIT_SECONDS) :
    dictGet (sweepExpired now table) k = some t := by
  induction table with
  | nil => simp [dictGet] at hget
  | cons kt rest ih =>
    rw [sweepExpired_cons]
    by_cases hk : kt.1 = k
    · have ht : kt.2 = t := by
        rw [dictGet_cons_of_eq hk] at hget
        exact Option.some.inj hget
      rw [if_pos (ht ▸ hfresh), dictGet_cons_of_eq hk, ht]
    · rw [dictGet_cons_of_ne hk] at hget
      by_cases hkeep : now - kt.2 ≤ RATE_LIMIT_SECONDS
      · rw [if_pos hkeep, dictGet_cons_of_ne hk]
        exact ih hget
      · rw [if_neg hkeep]
        exact ih hget

theorem dictGet_eq_none_of_no_key {table : DedupTable} {k : ResKey}
    (h : ∀ kt ∈ table, kt.1 ≠ k) : dictGet table k = none := by
  have hfind : List.find? (fun kt => decide (kt.1 = k)) table = none := by
    rw [List.find?_eq_none]
    intro kt hmem
    simpa using h kt hmem
  simp [dictGet, hfind]

theorem dictGet_mark_self (g : Int) (v : String) (t0 : ℚ) (table : DedupTable) :
    dictGet (mark_as_processed g v t0 table) (g, v) = some t0 :=
  dictGet_cons_self _ _ _

theorem should_after_mark_fresh (table : DedupTable) (g : Int) (v : String)
    {t0 t1 : ℚ} (h : t1 - t0 < RATE_LIMIT_SECONDS) :
    (should_process_video g v t1 (mark_as_processed g v t0 table)).1 = false := by
  have hget : dictGet (sweepExpired t1 (mark_as_processed g v t0 table)) (g, v)
      = some t0 :=
    dictGet_sweep_of_fresh (dictGet_mark_self g v t0 table) (le_of_lt h)
  simp [should_process_video, hget, h]

theorem should_after_mark_stale (table : DedupTable) (g : Int) (v : String)
    {t0 t1 : ℚ} (h : RATE_LIMIT_SECONDS ≤ t1 - t0) :
    (should_process_video g v t1 (mark_as_processed g v t0 table)).1 = true := by
  by_cases hgt : t1 - t0 ≤ RATE_LIMIT_SECONDS
  · have hget : dictGet (sweepExpired t1 (mark_as_processed g v t0 table)) (g, v)
        = some t0 :=
      dictGet_sweep_of_fresh (dictGet_mark_self g v t0 table) hgt
    simp [should_process_video, hget, not_lt.mpr h]
  · have hnone : dictGet (sweepExpired t1 (mark_as_processed g v t0 table)) (g, v)
        = none := by
      apply dictGet_eq_none_of_no_key
      intro kt hmem
      have hmem2 : kt ∈ mark_as_processed g v t0 table := by
        simp only [sweepExpired, List.mem_filter] at hmem
        exact hmem.1
      simp only [mark_as_processed, List.mem_cons, List.mem_filter] at hmem2
      rcases hmem2 with heq | ⟨_, hne⟩
      · exfalso
        apply hgt
        have : kt.2 = t0 := by rw [heq]
        rw [← this]
        simp only [sweepExpired, List.mem_filter] at hmem
        simpa using hmem.2
      · simpa using hne
    simp [should_process_video, hnone]

theorem should_process_mem_snd (table : DedupTable) (g : Int) (v : String)
    (t1 : ℚ) (k : ResKey) (t : ℚ) :
    (k, t) ∈ (should_process_video g v t1 table).2 ↔
      (k, t) ∈ table ∧ t1 - t ≤ RATE_LIMIT_SECONDS := by
  rw [should_process_video_snd]
  simp [sweepExpired, List.mem_filter]

/-- Claim C2: after `mark_as_processed` at time `t0`, a `should_process_video`
whose clock `t1` is within the 300 s window returns `false`; at or after the
window it returns `true`; and every call's output table keeps exactly the
entries whose age does not exceed the window. -/
theorem c2_rate_window (table : DedupTable) (g : Int) (v : String) (t0 t1 : ℚ) :
    (t1 - t0 < RATE_LIMIT_SECONDS →
      (should_process_video g v t1 (mark_as_processed g v t0 table)).1 = false) ∧
    (RATE_LIMIT_SECONDS ≤ t1 - t0 →
      (should_process_video g v t1 (mark_as_processed g v t0 table)).1 = true) ∧
    (∀ k t, (k, t) ∈ (should_process_video g v t1 table).2 ↔
      (k, t) ∈ table ∧ t1 - t ≤ RATE_LIMIT_SECONDS) :=
  ⟨fun h => should_after_mark_fresh table g v h,
   fun h => should_after_mark_stale table g v h,
   fun k t => should_process_mem_snd table g v t1 k t⟩

/-- Witness for C2 at concrete inputs. -/
theorem c2_rate_window_witness :
    (should_process_video 7 "BV1xx411c7mD" 100
      (mark_as_processed 7 "BV1xx411c7mD" 0 [])).1 = false ∧
    (should_process_video 7 "BV1xx411c7mD" 300
      (mark_as_processed 7 "BV1xx411c7mD" 0 [])).1 = true ∧
    (((7 : Int), "BV1xx411c7mD"), (0 : ℚ)) ∈
      (should_process_video 7 "BV1xx411c7mD" 100
        [(((7 : Int), "BV1xx411c7mD"), (0 : ℚ))]).2 := by
  refine ⟨(c2_rate_window [] 7 "BV1xx411c7mD" 0 100).1 (by norm_num [RATE_LIMIT_SECONDS]),
    (c2_rate_window [] 7 "BV1xx411c7mD" 0 300).2.1 (by norm_num [RATE_LIMIT_SECONDS]),
    ((c2_rate_window [(((7 : Int), "BV1xx411c7mD"), (0 : ℚ))] 7 "BV1xx411c7mD" 0 100).2.2
      ((7 : Int), "BV1xx411c7mD") 0).mpr
      ⟨by simp, by norm_num [RATE_LIMIT_SECONDS]⟩⟩

/-- Claim C10: every private message event is assigned scope id 0, so all
private chats share one rate-limit record per video id: once one private
user's handling of a video is marked, `should_process_video` returns `false`
for any other private user within the window. -/
theorem c10_private_scope_shared :
    (∀ uid, handler_group_id (.privateMsg uid) = 0) ∧
    (∀ (u1 u2 : Int) (vid : String) (table : DedupTable) (t0 t1 : ℚ),
      t1 - t0 < RATE_LIMIT_SECONDS →
      (should_process_video (handler_group_id (.privateMsg u2)) vid t1
        (mark_as_processed (handler_group_id (.privateMsg u1)) vid t0 table)).1
        = false) :=
  ⟨fun _ => rfl,
   fun _ _ vid table _ _ h => should_after_mark_fresh table 0 vid h⟩

/-- Witness for C10 at concrete inputs. -/
theorem c10_private_scope_shared_witness :
    handler_group_id (.privateMsg 11) = 0 ∧
    (should_process_video (handler_group_id (.privateMsg 22)) "BV1xx411c7mD" 10
      (mark_as_processed (handler_group_id (.privateMsg 11)) "BV1xx411c7mD" 0 [])).1
      = false :=
  ⟨c10_private_scope_shared.1 11,
   c10_private_scope_shared.2 11 22 "BV1xx411c7mD" [] 0 10
     (by norm_num [RATE_LIMIT_SECONDS])⟩

/-- Claim C4: a first-upload `ActionFailed` matching the thumbnail signature
triggers exactly one re-encode and exactly one retried upload, whose failure
propagates with no further retry; a non-matching failure is re-raised
unchanged with no re-encode. -/
theorem c4_upload_retry (DM : Nat) (vi : VideoInfo) (cache : Bool)
    (m : String) (send2 : SendOutcome)
    (hdur : ¬ vi.video_duration > DM) :
    (isThumbError m = true →
      (download_and_send_video DM vi cache (.actionFailed m) send2).encodeOps = 1 ∧
      (download_and_send_video DM vi cache (.actionFailed m) send2).sendAttempts = 2 ∧
      (send2 = .ok →
        (download_and_send_video DM vi cache (.actionFailed m) send2).result
          = .ok true) ∧
      (∀ m2, send2 = .actionFailed m2 →
        (download_and_send_video DM vi cache (.actionFailed m) send2).result
          = .error (.actionFailed m2))) ∧
    (isThumbError m = false →
      (download_and_send_video DM vi cache (.actionFailed m) send2).result
        = .error (.actionFailed m) ∧
      (download_and_send_video DM vi cache (.actionFailed m) send2).encodeOps = 0 ∧
      (download_and_send_video DM vi cache (.actionFailed m) send2).sendAttempts = 1)
    := by
  constructor
  · intro hsig
    cases send2 with
    | ok => simp [download_and_send_video, hdur, hsig]
    | actionFailed m2 => simp [download_and_send_video, hdur, hsig]
  · intro hsig
    cases send2 with
    | ok => simp [download_and_send_video, hdur, hsig]
    | actionFailed m2 => simp [download_and_send_video, hdur, hsig]

/-- Witness for C4: the signature-matching failure retries once and a second
failure propagates; a non-matching failure is re-raised. -/
theorem c4_upload_retry_witness :
    (download_and_send_video 600 ⟨100, "u", none⟩ true
      (.actionFailed thumbErrorSuffix) (.actionFailed "net down")).encodeOps = 1 ∧
    (download_and_send_video 600 ⟨100, "u", none⟩ true
      (.actionFailed thumbErrorSuffix) (.actionFailed "net down")).result
      = .error (.actionFailed "net down") ∧
    (download_and_send_video 600 ⟨100, "u", none⟩ true
      (.actionFailed "timeout") (.actionFailed "net down")).result
      = .error (.actionFailed "timeout") := by
  have h1 := c4_upload_retry 600 ⟨100, "u", none⟩ true thumbErrorSuffix
    (.actionFailed "net down") (by decide)
  have h2 := c4_upload_retry 600 ⟨100, "u", none⟩ true "timeout"
    (.actionFailed "net down") (by decide)
  exact ⟨(h1.1 (by decide)).1, (h1.1 (by decide)).2.2.2 "net down" rfl,
    (h2.2 (by decide)).1⟩

/-- Claim C6: with `DURATION_MAXIMUM = 600`, a 601 s video makes
`download_and_send_video` return `False` with no download and no upload
attempt and no exception, while a 599 s video proceeds to the download step
(when the file is not already cached). -/
theorem c6_duration_ceiling (vi1 vi2 : VideoInfo) (cache : Bool)
    (s1 s2 s1b s2b : SendOutcome) :
    (vi1.video_duration = 601 →
      download_and_send_video 600 vi1 cache s1 s2 =
        { result := .ok false, downloadOps := 0, encodeOps := 0,
          sendAttempts := 0 }) ∧
    (vi2.video_duration = 599 →
      1 ≤ (download_and_send_video 600 vi2 false s1b s2b).downloadOps) := by
  constructor
  · intro h
    simp [download_and_send_video, h]
  · intro h
    have hdur : ¬ vi2.video_duration > 600 := by omega
    cases s1b with
    | ok =>
      cases hau : vi2.audio_url <;>
        simp [download_and_send_video, hdur, hau]
    | actionFailed m =>
      cases hau : vi2.audio_url <;>
        cases hsig : isThumbError m <;>
          cases s2b <;>
            simp [download_and_send_video, hdur, hau, hsig]

/-- Witness for C6 at concrete inputs. -/
theorem c6_duration_ceiling_witness :
    download_and_send_video 600 ⟨601, "u", none⟩ false .ok .ok =
      { result := .ok false, downloadOps := 0, encodeOps := 0,
        sendAttempts := 0 } ∧
    1 ≤ (download_and_send_video 600 ⟨599, "u", some "a"⟩ false .ok .ok).downloadOps
    := by
  have h := c6_duration_ceiling ⟨601, "u", none⟩ ⟨599, "u", some "a"⟩ false
    .ok .ok .ok .ok
  exact ⟨h.1 rfl, h.2 rfl⟩

theorem applyOverride_bv_some {url : String} {m : ReMatch} (kw : BiliKeyword)
    (vid0 : String) (hc : containsSub ['/', 'B', 'V'] url.data = true)
    (hs : searchFrom matchAtSlashBV url.data = some m) :
    applyEmbeddedIdOverride kw url vid0 = (String.mk m.group1, "BV") := by
  simp [applyEmbeddedIdOverride, hc, hs]

theorem applyOverride_bv_none {url : String} (kw : BiliKeyword)
    (vid0 : String) (hc : containsSub ['/', 'B', 'V'] url.data = true)
    (hs : searchFrom matchAtSlashBV url.data = none) :
    applyEmbeddedIdOverride kw url vid0 = (vid0, "BV") := by
  simp [applyEmbeddedIdOverride, hc, hs]

theorem applyOverride_av_some {url : String} {m : ReMatch} (kw : BiliKeyword)
    (vid0 : String) (hc : containsSub ['/', 'B', 'V'] url.data = false)
    (hc2 : containsSub ['/', 'a', 'v'] url.data = true)
    (hs : searchFrom matchAtSlashAv url.data = some m) :
    applyEmbeddedIdOverride kw url vid0 = (String.mk m.group1, "av") := by
  simp [applyEmbeddedIdOverride, hc, hc2, hs]

theorem applyOverride_av_none {url : String} (kw : BiliKeyword)
    (vid0 : String) (hc : containsSub ['/', 'B', 'V'] url.data = false)
    (hc2 : containsSub ['/', 'a', 'v'] url.data = true)
    (hs : searchFrom matchAtSlashAv url.data = none) :
    applyEmbeddedIdOverride kw url vid0 = (vid0, "BV") := by
  simp [applyEmbeddedIdOverride, hc, hc2, hs]

theorem parse_some_shape {redirect : String → String} {text : String}
    {kw : BiliKeyword} {r : ParsedVideoRef}
    (h : parse_video_id_from_text redirect text kw = some r) :
    ∃ m, keywordSearch kw text.data = some m ∧
      r.video_id = (applyEmbeddedIdOverride kw r.url (String.mk m.group1)).1 ∧
      r.video_type = (applyEmbeddedIdOverride kw r.url (String.mk m.group1)).2 := by
  unfold parse_video_id_from_text at h
  cases hm : keywordSearch kw text.data with
  | none =>
    rw [hm] at h
    exact absurd h (by simp)
  | some m =>
    rw [hm] at h
    simp only at h
    by_cases hsl : isShortlink kw = true
    · rw [if_pos hsl] at h
      by_cases hu : redirect (String.mk m.group0) = String.mk m.group0
      · rw [if_pos hu] at h
        exact absurd h (by simp)
      · rw [if_neg hu] at h
        have hr := Option.some.inj h
        refine ⟨m, rfl, ?_, ?_⟩ <;> rw [← hr]
    · rw [if_neg hsl] at h
      have hr := Option.some.inj h
      refine ⟨m, rfl, ?_, ?_⟩ <;> rw [← hr]

/-- Claim C5 (amended): a short-link whose redirect hop returns the same URL
parses to `none`; and the embedded-id override applies to the first of
`"/BV"`, `"/av"` contained as a substring of the resolved URL, only when
that pattern fully matches there — id and kind then come from that match —
while a failed match of the first-contained pattern keeps the
keyword-derived id (group 1 of the keyword match) with the default `"BV"`
kind, in both the `"/BV"`-first and the `"/av"`-first case, even when the
other pattern would match. -/
theorem c5_redirect_and_override (redirect : String → String) (text : String)
    (kw : BiliKeyword) :
    (∀ m, isShortlink kw = true → keywordSearch kw text.data = some m →
      redirect (String.mk m.group0) = String.mk m.group0 →
      parse_video_id_from_text redirect text kw = none) ∧
    (∀ r m0, parse_video_id_from_text redirect text kw = some r →
      keywordSearch kw text.data = some m0 →
      (∀ m, containsSub ['/', 'B', 'V'] r.url.data = true →
        searchFrom matchAtSlashBV r.url.data = some m →
        r.video_id = String.mk m.group1 ∧ r.video_type = "BV") ∧
      (containsSub ['/', 'B', 'V'] r.url.data = true →
        searchFrom matchAtSlashBV r.url.data = none →
        r.video_id = String.mk m0.group1 ∧ r.video_type = "BV") ∧
      (∀ m, containsSub ['/', 'B', 'V'] r.url.data = false →
        containsSub ['/', 'a', 'v'] r.url.data = true →
        searchFrom matchAtSlashAv r.url.data = some m →
        r.video_id = String.mk m.group1 ∧ r.video_type = "av") ∧
      (containsSub ['/', 'B', 'V'] r.url.data = false →
        containsSub ['/', 'a', 'v'] r.url.data = true →
        searchFrom matchAtSlashAv r.url.data = none →
        r.video_id = String.mk m0.group1 ∧ r.video_type = "BV")) := by
  constructor
  · intro m hsl hm hred
    unfold parse_video_id_from_text
    rw [hm]
    simp only
    rw [if_pos hsl, if_pos hred]
  · intro r m0 h hm0
    obtain ⟨m, hm, h1, h2⟩ := parse_some_shape h
    rw [hm0] at hm
    obtain rfl := Option.some.inj hm
    refine ⟨?_, ?_, ?_, ?_⟩
    · intro m2 hc hs
      rw [h1, h2, applyOverride_bv_some kw _ hc hs]
      exact ⟨rfl, rfl⟩
    · intro hc hs
      rw [h1, h2, applyOverride_bv_none kw _ hc hs]
      exact ⟨rfl, rfl⟩
    · intro m2 hc hc2 hs
      rw [h1, h2, applyOverride_av_some kw _ hc hc2 hs]
      exact ⟨rfl, rfl⟩
    · intro hc hc2 hs
      rw [h1, h2, applyOverride_av_none kw _ hc hc2 hs]
      exact ⟨rfl, rfl⟩

/-- Witness for the amended C5: a self-redirecting short-link parses to
`none`; a short-link resolving to a canonical video URL gets its id
overridden by the embedded BV id; and on the counterexample URL (contained
`"/BV"` whose pattern fails) the keyword-derived empty id is kept with kind
`"BV"`. -/
theorem c5_redirect_and_override_witness :
    parse_video_id_from_text (fun u => u) cxText .b23 = none ∧
    (parse_video_id_from_text
        (fun _ => "https://www.bilibili.com/video/BV1LpD3YsETa") cxText .b23
      = some { url := "https://www.bilibili.com/video/BV1LpD3YsETa",
               video_id := "BV1LpD3YsETa", page_num := 1, video_type := "BV" } ∧
      ("BV1LpD3YsETa" : String)
        = String.mk (("BV1LpD3YsETa" : String).data)) ∧
    (parse_video_id_from_text cxRedirect cxText .b23
      = some { url := cxUrl, video_id := "", page_num := 1,
               video_type := "BV" } ∧
      ("" : String) = String.mk ([] : List Char)) := by
  have hm0 : keywordSearch .b23 cxText.data
      = some { group0 := cxText.data, group1 := [], group2 := some [] } := by
    decide
  have hpart1 := (c5_redirect_and_override (fun u => u) cxText .b23).1
    { group0 := cxText.data, group1 := [], group2 := some [] }
    rfl hm0 rfl
  have hparse : parse_video_id_from_text
      (fun _ => "https://www.bilibili.com/video/BV1LpD3YsETa") cxText .b23
      = some { url := "https://www.bilibili.com/video/BV1LpD3YsETa",
               video_id := "BV1LpD3YsETa", page_num := 1, video_type := "BV" } := by
    decide
  have hpart2 := ((c5_redirect_and_override
      (fun _ => "https://www.bilibili.com/video/BV1LpD3YsETa") cxText .b23).2
      _ _ hparse hm0).1
      { group0 := ("/BV1LpD3YsETa" : String).data,
        group1 := ("BV1LpD3YsETa" : String).data, group2 := some [] }
      (by decide) (by decide)
  have hparse2 : parse_video_id_from_text cxRedirect cxText .b23
      = some { url := cxUrl, video_id := "", page_num := 1,
               video_type := "BV" } := by
    decide
  have hkept := ((c5_redirect_and_override cxRedirect cxText .b23).2
      _ _ hparse2 hm0).2.1 (by decide) (by decide)
  exact ⟨hpart1, ⟨hparse, hpart2.1⟩, ⟨hparse2, hkept.1⟩⟩

/-- Claim C5 as stated fails on the code: for this short-link and redirect
oracle, the resolved URL contains a complete embedded `/av` id
(`av1234567`), yet the parse result keeps the keyword-derived empty id and
the default `BV` kind, because the substring `/BV` is found first and its
pattern match fails. -/
theorem c5_counterexample :
    (searchFrom matchAtSlashAv cxUrl.data).map (fun m => String.mk m.group1)
      = some "1234567" ∧
    parse_video_id_from_text cxRedirect cxText .b23
      = some { url := cxUrl, video_id := "", page_num := 1, video_type := "BV" } ∧
    ("" : String) ≠ "1234567" ∧ ("BV" : String) ≠ "av" := by
  refine ⟨by decide, by decide, by decide, by decide⟩

theorem parseSourceName_sourceName (src : SourceType) :
    parseSourceName (sourceName src) = some src := by
  cases src <;> rfl

theorem validateFilterDict_dump (d : List (SourceType × FilterItem)) :
    validateFilterDict (d.map (fun e => (sourceName e.1, e.2.disabled_groups)))
      = some d := by
  induction d with
  | nil => rfl
  | cons e rest ih =>
    simp [validateFilterDict, parseSourceName_sourceName, ih]

theorem validateFilterConfig_dump (c : FilterConfig) :
    validateFilterConfig (dumpFilterConfig c) = some c := by
  simp [validateFilterConfig, dumpFilterConfig, validateFilterDict_dump]

theorem configLookup_append (d1 d2 : List (SourceType × FilterItem))
    (src : SourceType) :
    configLookup (d1 ++ d2) src
      = (configLookup d1 src).or (configLookup d2 src) := by
  cases h : List.find? (fun e => decide (e.1 = src)) d1 <;>
    simp [configLookup, List.find?_append, h]

theorem getD_configLookup_setdefault (srcs : List SourceType)
    (d : List (SourceType × FilterItem)) (src : SourceType) :
    (configLookup (srcs.foldl setdefaultStep d) src).getD ⟨[]⟩
      = (configLookup d src).getD ⟨[]⟩ := by
  induction srcs generalizing d with
  | nil => rfl
  | cons s2 rest ih =>
    rw [List.foldl_cons, ih]
    unfold setdefaultStep
    cases h : configLookup d s2 with
    | some it => rfl
    | none =>
      rw [configLookup_append]
      cases h2 : configLookup d src with
      | some it => simp [h2]
      | none =>
        by_cases hs : s2 = src <;> simp [h2, configLookup, List.find?, hs]

theorem getSourceDisabled_setdefault (c : FilterConfig) (src : SourceType) :
    getSourceDisabled (setdefaultSources c) src = getSourceDisabled c src := by
  unfold getSourceDisabled setdefaultSources
  simp only
  rw [getD_configLookup_setdefault]

/-- Claim C8: saving the filter state and reloading it yields the identical
set of globally disabled groups, identical per-platform disabled-group
lists, and identical `do_not_download_media_groups` and
`bili_auto_download_when_disabled_groups` lists. -/
theorem c8_filter_roundtrip (s : Finset Int) (c : FilterConfig) :
    load_or_initialize_set (some (save_disabled_groups s c).1) = s ∧
    (∀ src,
      getSourceDisabled (load_filter_config (some (save_disabled_groups s c).2)) src
        = getSourceDisabled c src) ∧
    (load_filter_config (some (save_disabled_groups s c).2)).do_not_download_media_groups
      = c.do_not_download_media_groups ∧
    (load_filter_config
        (some (save_disabled_groups s c).2)).bili_auto_download_when_disabled_groups
      = c.bili_auto_download_when_disabled_groups := by
  refine ⟨?_, ?_, ?_, ?_⟩
  · simp [load_or_initialize_set, save_disabled_groups, Finset.sort_toFinset]
  · intro src
    simp only [save_disabled_groups, load_filter_config, validateFilterConfig_dump]
    exact getSourceDisabled_setdefault c src
  · simp [save_disabled_groups, load_filter_config, validateFilterConfig_dump,
      setdefaultSources]
  · simp [save_disabled_groups, load_filter_config, validateFilterConfig_dump,
      setdefaultSources]

/-- Claim C9 concerns the equivalence of the two generations of
`is_not_in_disabled_groups_by_source_alias`.  The old generation never
terminates normally: its parameter shadows the alias table, so it raises
`AttributeError` on every input, while the new generation returns a
boolean — shown here at a concrete input and in general. -/
theorem c9_alias_generations_diverge :
    is_not_in_disabled_groups_by_source_alias_old defaultFilterConfig
      (.group 123 1) "bilibili" = .error .attributeError ∧
    is_not_in_disabled_groups_by_source_alias_new defaultFilterConfig
      (.group 123 1) "bilibili" = true ∧
    (∀ (fc : FilterConfig) (e : PyEvent) (s : String),
      is_not_in_disabled_groups_by_source_alias_old fc e s
        = .error .attributeError) :=
  ⟨rfl, by decide, fun _ _ _ => rfl⟩

theorem lt_length_of_getElem?_eq_some {l : List HTask} {n : Nat} {a : HTask}
    (h : l[n]? = some a) : n < l.length := by
  by_contra hc
  push_neg at hc
  rw [List.getElem?_eq_none hc] at h
  exact Option.noConfusion h

theorem getElem?_set_lookup {l : List HTask} {i : Nat} {t : HTask} (t' : HTask)
    (ht : l[i]? = some t) (j : Nat) :
    (l.set i t')[j]? = if i = j then some t' else l[j]? := by
  rw [List.getElem?_set]
  by_cases hij : i = j
  · subst hij
    simp [lt_length_of_getElem?_eq_some ht]
  · simp [hij]

theorem dictGet_should_snd_of_fresh {table : DedupTable} {k : ResKey}
    {tt now : ℚ} (g : Int) (v : String)
    (h : dictGet table k = some tt) (hfresh : now - tt ≤ RATE_LIMIT_SECONDS) :
    dictGet (should_process_video g v now table).2 k = some tt := by
  rw [should_process_video_snd]
  exact dictGet_sweep_of_fresh h hfresh

theorem should_fst_false_of_fresh {table : DedupTable} {g : Int} {v : String}
    {now tt : ℚ} (h : dictGet table (g, v) = some tt)
    (hlt : now - tt < RATE_LIMIT_SECONDS) :
    (should_process_video g v now table).1 = false := by
  have hget := dictGet_sweep_of_fresh h (le_of_lt hlt)
  simp [should_process_video, hget, hlt]

theorem acquireAndEnter_preserves (gid : Int) (vid : String) {s : SysState}
    {i : Nat} {t : HTask} (table1 : DedupTable) (ws : List Nat)
    (ht : s.tasks[i]? = some t) (hlock : s.lock = none)
    (htab : ∀ tt, dictGet s.table (gid, vid) = some tt →
      s.now - tt ≤ RATE_LIMIT_SECONDS → dictGet table1 (gid, vid) = some tt)
    (inv : StepInvs gid vid s) :
    StepInvs gid vid (acquireAndEnter gid vid i t s table1 ws) := by
  obtain ⟨⟨hlk1, hlk2⟩, hmark⟩ := inv
  unfold acquireAndEnter
  by_cases hck : (should_process_video gid vid s.now table1).1 = true
  · rw [if_pos hck]
    refine ⟨⟨?_, ?_⟩, ?_⟩
    · intro j hj
      dsimp only at hj
      have hij : i = j := Option.some.inj hj
      subst hij
      refine ⟨{ t with phase := .inside 0 (workFor t.kind) s.now }, ?_, rfl⟩
      dsimp only
      rw [getElem?_set_lookup _ ht]
      simp
    · intro j u hu hg
      dsimp only at hu ⊢
      rw [getElem?_set_lookup _ ht] at hu
      by_cases hij : i = j
      · simpa using hij
      · rw [if_neg hij] at hu
        have := hlk2 j u hu hg
        rw [hlock] at this
        exact Option.noConfusion this
    · intro j u hu tM hmt
      dsimp only at hu ⊢
      rw [getElem?_set_lookup _ ht] at hu
      by_cases hij : i = j
      · rw [if_pos hij] at hu
        have hu2 := (Option.some.inj hu).symm
        subst hu2
        have htm : tM = s.now := by
          simpa [Phase.markTime] using hmt.symm
        subst htm
        exact ⟨le_refl _, fun _ =>
          ⟨s.now, dictGet_mark_self _ _ _ _, le_refl _, le_refl _⟩⟩
      · rw [if_neg hij] at hu
        obtain ⟨h1, _⟩ := hmark j u hu tM hmt
        exact ⟨h1, fun _ =>
          ⟨s.now, dictGet_mark_self _ _ _ _, h1, le_refl _⟩⟩
  · rw [if_neg hck]
    refine ⟨⟨?_, ?_⟩, ?_⟩
    · intro j hj
      dsimp only at hj
      exact Option.noConfusion hj
    · intro j u hu hg
      dsimp only at hu ⊢
      rw [getElem?_set_lookup _ ht] at hu
      by_cases hij : i = j
      · rw [if_pos hij] at hu
        have hu2 := (Option.some.inj hu).symm
        subst hu2
        exact Bool.noConfusion hg
      · rw [if_neg hij] at hu
        have := hlk2 j u hu hg
        rw [hlock] at this
        exact Option.noConfusion this
    · intro j u hu tM hmt
      dsimp only at hu ⊢
      rw [getElem?_set_lookup _ ht] at hu
      by_cases hij : i = j
      · rw [if_pos hij] at hu
        have hu2 := (Option.some.inj hu).symm
        subst hu2
        exact Option.noConfusion hmt
      · rw [if_neg hij] at hu
        obtain ⟨h1, h2⟩ := hmark j u hu tM hmt
        refine ⟨h1, fun hf => ?_⟩
        obtain ⟨tt, hg, h3, h4⟩ := h2 hf
        have hle : s.now - tt ≤ RATE_LIMIT_SECONDS := by
          have h5 : RATE_LIMIT_SECONDS ≤ RATE_LIMIT_SECONDS := le_refl _
          linarith
        exact ⟨tt, dictGet_should_snd_of_fresh gid vid (htab tt hg hle) hle,
          h3, h4⟩

theorem replace_nonguard_preserves (gid : Int) (vid : String) {s : SysState}
    {i : Nat} {t : HTask} (ht : s.tasks[i]? = some t) (ph : Phase)
    (ws : List Nat) (hng : ph.isInGuard = false)
    (hmt : ∀ tM, ph.markTime = some tM → t.phase.markTime = some tM)
    (htguard : t.phase.isInGuard = false)
    (inv : StepInvs gid vid s) :
    StepInvs gid vid
      { s with table := (should_process_video gid vid s.now s.table).2,
               waiters := ws,
               tasks := s.tasks.set i { t with phase := ph } } := by
  obtain ⟨⟨hlk1, hlk2⟩, hmark⟩ := inv
  refine ⟨⟨?_, ?_⟩, ?_⟩
  · intro j hj
    dsimp only at hj ⊢
    obtain ⟨u, hu, hgu⟩ := hlk1 j hj
    by_cases hij : i = j
    · subst hij
      have htu : u = t := by
        rw [ht] at hu
        exact (Option.some.inj hu).symm
      rw [htu, htguard] at hgu
      exact Bool.noConfusion hgu
    · refine ⟨u, ?_, hgu⟩
      rw [getElem?_set_lookup _ ht, if_neg hij]
      exact hu
  · intro j u hu hg
    dsimp only at hu ⊢
    rw [getElem?_set_lookup _ ht] at hu
    by_cases hij : i = j
    · rw [if_pos hij] at hu
      have hu2 := (Option.some.inj hu).symm
      subst hu2
      dsimp only at hg
      rw [hng] at hg
      exact Bool.noConfusion hg
    · rw [if_neg hij] at hu
      exact hlk2 j u hu hg
  · intro j u hu tM hmt2
    dsimp only at hu ⊢
    rw [getElem?_set_lookup _ ht] at hu
    by_cases hij : i = j
    · subst hij
      rw [if_pos rfl] at hu
      have hu2 := (Option.some.inj hu).symm
      subst hu2
      have hmt3 : t.phase.markTime = some tM := hmt tM hmt2
      obtain ⟨h1, h2⟩ := hmark i t ht tM hmt3
      refine ⟨h1, fun hf => ?_⟩
      obtain ⟨tt, hg, h3, h4⟩ := h2 hf
      have hle : s.now - tt ≤ RATE_LIMIT_SECONDS := by linarith
      exact ⟨tt, dictGet_should_snd_of_fresh gid vid hg hle, h3, h4⟩
    · rw [if_neg hij] at hu
      obtain ⟨h1, h2⟩ := hmark j u hu tM hmt2
      refine ⟨h1, fun hf => ?_⟩
      obtain ⟨tt, hg, h3, h4⟩ := h2 hf
      have hle : s.now - tt ≤ RATE_LIMIT_SECONDS := by linarith
      exact ⟨tt, dictGet_should_snd_of_fresh gid vid hg hle, h3, h4⟩

theorem exit_guard_preserves (gid : Int) (vid : String) {s : SysState}
    {i : Nat} {t : HTask} (ht : s.tasks[i]? = some t) (ph : Phase)
    (hng : ph.isInGuard = false)
    (hguard : t.phase.isInGuard = true)
    (hmt : ∀ tM, ph.markTime = some tM → t.phase.markTime = some tM)
    (inv : StepInvs gid vid s) :
    StepInvs gid vid
      { s with lock := none,
               tasks := s.tasks.set i { t with phase := ph } } := by
  obtain ⟨⟨hlk1, hlk2⟩, hmark⟩ := inv
  have hlocki : s.lock = some i := hlk2 i t ht hguard
  refine ⟨⟨?_, ?_⟩, ?_⟩
  · intro j hj
    dsimp only at hj
    exact Option.noConfusion hj
  · intro j u hu hg
    dsimp only at hu ⊢
    rw [getElem?_set_lookup _ ht] at hu
    by_cases hij : i = j
    · rw [if_pos hij] at hu
      have hu2 := (Option.some.inj hu).symm
      subst hu2
      dsimp only at hg
      rw [hng] at hg
      exact Bool.noConfusion hg
    · rw [if_neg hij] at hu
      have h2 := hlk2 j u hu hg
      rw [hlocki] at h2
      exact absurd (Option.some.inj h2) hij
  · intro j u hu tM hmt2
    dsimp only at hu ⊢
    rw [getElem?_set_lookup _ ht] at hu
    by_cases hij : i = j
    · subst hij
      rw [if_pos rfl] at hu
      have hu2 := (Option.some.inj hu).symm
      subst hu2
      exact hmark i t ht tM (hmt tM hmt2)
    · rw [if_neg hij] at hu
      exact hmark j u hu tM hmt2

theorem advance_inside_preserves (gid : Int) (vid : String) {s : SysState}
    {i : Nat} {t : HTask} (ht : s.tasks[i]? = some t)
    (idx2 : Nat) (rem2 : List WorkStep) (tM : ℚ)
    (hguard : t.phase.isInGuard = true)
    (hmtold : t.phase.markTime = some tM)
    (inv : StepInvs gid vid s) :
    StepInvs gid vid
      { s with
        tasks := s.tasks.set i { t with phase := Phase.inside idx2 rem2 tM } }
    := by
  obtain ⟨⟨hlk1, hlk2⟩, hmark⟩ := inv
  have hlocki : s.lock = some i := hlk2 i t ht hguard
  refine ⟨⟨?_, ?_⟩, ?_⟩
  · intro j hj
    dsimp only at hj ⊢
    rw [hlocki] at hj
    have hij := Option.some.inj hj
    subst hij
    refine ⟨({ t with phase := Phase.inside idx2 rem2 tM } : HTask), ?_, rfl⟩
    rw [getElem?_set_lookup _ ht, if_pos rfl]
  · intro j u hu hg
    dsimp only at hu ⊢
    rw [getElem?_set_lookup _ ht] at hu
    by_cases hij : i = j
    · subst hij
      exact hlocki
    · rw [if_neg hij] at hu
      exact hlk2 j u hu hg
  · intro j u hu tM2 hmt2
    dsimp only at hu ⊢
    rw [getElem?_set_lookup _ ht] at hu
    by_cases hij : i = j
    · subst hij
      rw [if_pos rfl] at hu
      have hu2 := (Option.some.inj hu).symm
      subst hu2
      have htm : tM2 = tM := by
        simpa [Phase.markTime] using hmt2.symm
      subst htm
      exact hmark i t ht tM2 hmtold
    · rw [if_neg hij] at hu
      exact hmark j u hu tM2 hmt2

theorem stepTask_preserves (gid : Int) (vid : String) {s s' : SysState}
    {i : Nat} (h : stepTask gid vid s i = some s')
    (inv : StepInvs gid vid s) : StepInvs gid vid s' := by
  unfold stepTask at h
  cases ht : s.tasks[i]? with
  | none =>
    rw [ht] at h
    exact Option.noConfusion h
  | some t =>
    obtain ⟨tk, tra, tph⟩ := t
    simp only [ht] at h
    cases tph with
    | ready =>
      dsimp only at h
      by_cases hck : (should_process_video gid vid s.now s.table).1 = true
      · rw [if_pos hck] at h
        cases tk with
        | full =>
          cases hlkc : s.lock with
          | some k =>
            simp only [hlkc] at h
            obtain rfl := Option.some.inj h
            rw [← hlkc]
            exact replace_nonguard_preserves gid vid ht Phase.doneLockBusy
              s.waiters rfl (fun tM hmt => Option.noConfusion hmt) rfl inv
          | none =>
            simp only [hlkc] at h
            cases hws : s.waiters with
            | nil =>
              simp only [hws] at h
              obtain rfl := Option.some.inj h
              exact acquireAndEnter_preserves gid vid _ [] ht hlkc
                (fun tt hg hf => dictGet_should_snd_of_fresh gid vid hg hf) inv
            | cons w rest =>
              simp only [hws] at h
              obtain rfl := Option.some.inj h
              rw [← hlkc]
              exact replace_nonguard_preserves gid vid ht Phase.waiting
                ((w :: rest) ++ [i]) rfl
                (fun tM hmt => Option.noConfusion hmt) rfl inv
        | auto =>
          cases hlkc : s.lock with
          | some k =>
            simp only [hlkc] at h
            obtain rfl := Option.some.inj h
            rw [← hlkc]
            exact replace_nonguard_preserves gid vid ht Phase.waiting
              (s.waiters ++ [i]) rfl
              (fun tM hmt => Option.noConfusion hmt) rfl inv
          | none =>
            simp only [hlkc] at h
            cases hws : s.waiters with
            | nil =>
              simp only [hws] at h
              obtain rfl := Option.some.inj h
              exact acquireAndEnter_preserves gid vid _ [] ht hlkc
                (fun tt hg hf => dictGet_should_snd_of_fresh gid vid hg hf) inv
            | cons w rest =>
              simp only [hws] at h
              obtain rfl := Option.some.inj h
              rw [← hlkc]
              exact replace_nonguard_preserves gid vid ht Phase.waiting
                ((w :: rest) ++ [i]) rfl
                (fun tM hmt => Option.noConfusion hmt) rfl inv
      · rw [if_neg hck] at h
        obtain rfl := Option.some.inj h
        exact replace_nonguard_preserves gid vid ht Phase.doneDropped
          s.waiters rfl (fun tM hmt => Option.noConfusion hmt) rfl inv
    | waiting =>
      dsimp only at h
      cases hlkc : s.lock with
      | some k =>
        simp only [hlkc] at h
        exact Option.noConfusion h
      | none =>
        simp only [hlkc] at h
        cases hws : s.waiters with
        | nil =>
          simp only [hws] at h
          exact Option.noConfusion h
        | cons j rest =>
          simp only [hws] at h
          by_cases hji : j = i
          · rw [if_pos hji] at h
            obtain rfl := Option.some.inj h
            exact acquireAndEnter_preserves gid vid _ rest ht hlkc
              (fun tt hg _ => hg) inv
          · rw [if_neg hji] at h
            exact Option.noConfusion h
    | inside idx rem tM =>
      dsimp only at h
      cases rem with
      | nil =>
        dsimp only at h
        obtain rfl := Option.some.inj h
        exact exit_guard_preserves gid vid ht (Phase.doneOk tM) rfl rfl
          (fun tM2 hmt2 => hmt2) inv
      | cons w rest =>
        dsimp only at h
        by_cases hra : tra = some idx
        · rw [if_pos hra] at h
          obtain rfl := Option.some.inj h
          exact exit_guard_preserves gid vid ht (Phase.doneRaised tM) rfl rfl
            (fun tM2 hmt2 => hmt2) inv
        · rw [if_neg hra] at h
          obtain rfl := Option.some.inj h
          exact advance_inside_preserves gid vid ht (idx + 1) rest tM
            rfl rfl inv
    | doneDropped =>
      dsimp only at h
      exact Option.noConfusion h
    | doneLockBusy =>
      dsimp only at h
      exact Option.noConfusion h
    | doneDouble =>
      dsimp only at h
      exact Option.noConfusion h
    | doneOk tM =>
      dsimp only at h
      exact Option.noConfusion h
    | doneRaised tM =>
      dsimp only at h
      exact Option.noConfusion h

theorem sysStep_preserves (gid : Int) (vid : String) {s s' : SysState}
    {a : Act} (h : sysStep gid vid s a = some s')
    (inv : StepInvs gid vid s) : StepInvs gid vid s' := by
  cases a with
  | run i => exact stepTask_preserves gid vid h inv
  | tick d =>
    simp only [sysStep] at h
    by_cases hd : (0 : ℚ) ≤ d
    · rw [if_pos hd] at h
      obtain rfl := Option.some.inj h
      obtain ⟨⟨hlk1, hlk2⟩, hmark⟩ := inv
      refine ⟨⟨?_, ?_⟩, ?_⟩
      · intro j hj
        dsimp only at hj ⊢
        exact hlk1 j hj
      · intro j u hu hg
        dsimp only at hu ⊢
        exact hlk2 j u hu hg
      · intro j u hu tM hmt
        dsimp only at hu ⊢
        obtain ⟨h1, h2⟩ := hmark j u hu tM hmt
        refine ⟨by linarith, fun hf => ?_⟩
        have hf2 : s.now - tM < RATE_LIMIT_SECONDS := by linarith
        obtain ⟨tt, hg, h3, h4⟩ := h2 hf2
        exact ⟨tt, hg, h3, by linarith⟩
    · rw [if_neg hd] at h
      exact Option.noConfusion h

theorem execActs_preserves (gid : Int) (vid : String) :
    ∀ (acts : List Act) {s s' : SysState},
      execActs gid vid s acts = some s' → StepInvs gid vid s →
      StepInvs gid vid s'
  | [], s, s', h, inv => by
    simp only [execActs] at h
    obtain rfl := Option.some.inj h
    exact inv
  | a :: rest, s, s', h, inv => by
    simp only [execActs] at h
    cases hs1 : sysStep gid vid s a with
    | none =>
      rw [hs1] at h
      exact Option.noConfusion h
    | some s1 =>
      rw [hs1] at h
      exact execActs_preserves gid vid rest h (sysStep_preserves gid vid hs1 inv)

theorem initOk_stepInvs (gid : Int) (vid : String) {s0 : SysState}
    (h : InitOk s0) : StepInvs gid vid s0 := by
  obtain ⟨hlk, hwt, hrd⟩ := h
  refine ⟨⟨?_, ?_⟩, ?_⟩
  · intro j hj
    rw [hlk] at hj
    exact Option.noConfusion hj
  · intro j u hu hg
    rw [hrd u (List.getElem?_mem hu)] at hg
    exact Bool.noConfusion hg
  · intro j u hu tM hmt
    rw [hrd u (List.getElem?_mem hu)] at hmt
    exact Option.noConfusion hmt

theorem reachable_stepInvs (gid : Int) (vid : String) {s0 s : SysState}
    (h0 : InitOk s0) (hr : SysReachable gid vid s0 s) :
    StepInvs gid vid s := by
  obtain ⟨acts, hacts⟩ := hr
  exact execActs_preserves gid vid acts hacts (initOk_stepInvs gid vid h0)

theorem not_exited_and_inguard {p : Phase} (h1 : p.isExited = true)
    (h2 : p.isInGuard = true) : False := by
  cases p <;> simp [Phase.isExited, Phase.isInGuard] at h1 h2

/-- Claim C1 (amended): in every state reachable from concurrent handler
invocations for one resource key, at most one invocation is inside the
lock-guarded section; and a `bilibili.handle` invocation whose check segment
runs while the lock is held is finished in that same atomic segment —
dropped by the dedup check or returned immediately by `is_processing` —
never suspending on the lock.  (The parts of the original claim this
amends: a `bilibili_auto_download.handle` invocation that passes the dedup
check while the lock is held has no `is_processing` test and queues on the
lock; and a `bilibili.handle` invocation arriving after a release while a
waiter is still pending sees `locked() == False`, passes `is_processing`,
and queues behind that waiter — both shown by the counterexample traces.) -/
theorem c1_guard_exclusion (gid : Int) (vid : String) {s0 s : SysState}
    (h0 : InitOk s0) (hr : SysReachable gid vid s0 s) :
    (∀ (i j : Nat) (ti tj : HTask), s.tasks[i]? = some ti →
      s.tasks[j]? = some tj → ti.phase.isInGuard = true →
      tj.phase.isInGuard = true → i = j) ∧
    (∀ (s1 s2 : SysState) (i : Nat) (t : HTask) (k : Nat),
      s1.tasks[i]? = some t → t.phase = Phase.ready →
      t.kind = HandlerKind.full → s1.lock = some k →
      stepTask gid vid s1 i = some s2 →
      ∃ u, s2.tasks[i]? = some u ∧
        (u.phase = Phase.doneLockBusy ∨ u.phase = Phase.doneDropped)) := by
  obtain ⟨⟨hlk1, hlk2⟩, _⟩ := reachable_stepInvs gid vid h0 hr
  constructor
  · intro i j ti tj hi hj hgi hgj
    have h1 := hlk2 i ti hi hgi
    have h2 := hlk2 j tj hj hgj
    rw [h1] at h2
    exact Option.some.inj h2
  · intro s1 s2 i t k ht1 hph hk hlk1c hstep
    obtain ⟨tk, tra, tph⟩ := t
    simp only at hph hk
    subst hph
    subst hk
    unfold stepTask at hstep
    simp only [ht1] at hstep
    by_cases hck : (should_process_video gid vid s1.now s1.table).1 = true
    · rw [if_pos hck] at hstep
      simp only [hlk1c] at hstep
      obtain rfl := Option.some.inj hstep
      refine ⟨⟨HandlerKind.full, tra, Phase.doneLockBusy⟩, ?_, Or.inl rfl⟩
      dsimp only
      rw [getElem?_set_lookup _ ht1, if_pos rfl]
    · rw [if_neg hck] at hstep
      obtain rfl := Option.some.inj hstep
      refine ⟨⟨HandlerKind.full, tra, Phase.doneDropped⟩, ?_, Or.inr rfl⟩
      dsimp only
      rw [getElem?_set_lookup _ ht1, if_pos rfl]

/-- Witness for the amended C1: a concrete two-task trace exercising the
mutual-exclusion part, and a full-handler check segment run against a held
lock exercising the immediate-return part. -/
theorem c1_guard_exclusion_witness :
    InitOk cxInitMix ∧
    execActs 0 "BV1xx411c7mD" cxInitMix [.run 0, .run 1] = some cxFinalMix ∧
    (0 : Nat) = 0 ∧
    stepTask 0 "BV1xx411c7mD" cxHeldInit 0 = some cxHeldNext ∧
    (∃ u, cxHeldNext.tasks[0]? = some u ∧
      (u.phase = Phase.doneLockBusy ∨ u.phase = Phase.doneDropped)) := by
  have h0 : InitOk cxInitMix := ⟨rfl, rfl, by decide⟩
  have hexec : execActs 0 "BV1xx411c7mD" cxInitMix [.run 0, .run 1]
      = some cxFinalMix := by
    norm_num [execActs, sysStep, stepTask, acquireAndEnter, should_process_video,
      sweepExpired, mark_as_processed, dictGet, workFor, RATE_LIMIT_SECONDS,
      cxInitMix, cxFinalMix, List.filter, List.find?]
  have hstep : stepTask 0 "BV1xx411c7mD" cxHeldInit 0 = some cxHeldNext := by
    norm_num [stepTask, acquireAndEnter, should_process_video, sweepExpired,
      mark_as_processed, dictGet, RATE_LIMIT_SECONDS, cxHeldInit, cxHeldNext,
      List.filter, List.find?]
  have hthm := c1_guard_exclusion 0 "BV1xx411c7mD" h0 ⟨[.run 0, .run 1], hexec⟩
  refine ⟨h0, hexec, ?_, hstep, ?_⟩
  · exact hthm.1 0 0
      ⟨.full, none,
        .inside 0 [.sendIntro, .fetchInfo, .sendSegments, .downloadSend] 0⟩
      ⟨.full, none,
        .inside 0 [.sendIntro, .fetchInfo, .sendSegments, .downloadSend] 0⟩
      (by norm_num [cxFinalMix]) (by norm_num [cxFinalMix]) rfl rfl
  · exact hthm.2 cxHeldInit cxHeldNext 0 ⟨.full, none, .ready⟩ 9
      (by norm_num [cxHeldInit]) rfl rfl rfl hstep

/-- Claim C1 as stated fails on the code, in two ways.  First trace: a
second `bilibili_auto_download` invocation passes the dedup check after the
rate window elapsed during the first one's long guarded work, finds the
lock held, and suspends waiting on it.  Second trace: after the holder
releases with an auto-download waiter still queued, a `bilibili.handle`
invocation sees `locked() == False`, passes `is_processing`, and queues
behind the pending waiter — so even the full handler neither drops it nor
returns immediately. -/
theorem c1_counterexample :
    (InitOk cxInitC1 ∧
      (execActs 0 "BV1xx411c7mD" cxInitC1 [.run 0, .tick 301, .run 1]).map
          (fun s => (s.lock, s.tasks.map HTask.phase))
        = some (some 0,
            [Phase.inside 0 [.fetchInfo, .downloadSend] 0, Phase.waiting])) ∧
    (InitOk cxInitHandoff ∧
      (execActs 0 "BV1xx411c7mD" cxInitHandoff
          [.run 0, .tick 301, .run 1, .run 0, .run 0, .run 0, .run 2]).map
          (fun s => (s.lock, s.waiters, s.tasks.map (fun t => (t.kind, t.phase))))
        = some (none, [1, 2],
            [(HandlerKind.auto, Phase.doneOk 0),
             (HandlerKind.auto, Phase.waiting),
             (HandlerKind.full, Phase.waiting)])) := by
  constructor
  · refine ⟨⟨rfl, rfl, by decide⟩, ?_⟩
    norm_num [execActs, sysStep, stepTask, acquireAndEnter, should_process_video,
      sweepExpired, mark_as_processed, dictGet, workFor, RATE_LIMIT_SECONDS,
      cxInitC1, List.filter, List.find?]
  · refine ⟨⟨rfl, rfl, by decide⟩, ?_⟩
    norm_num [execActs, sysStep, stepTask, acquireAndEnter, should_process_video,
      sweepExpired, mark_as_processed, dictGet, workFor, RATE_LIMIT_SECONDS,
      cxInitHandoff, List.filter, List.find?]

/-- Claim C7: in every reachable state, an invocation that has exited — by
normal completion, by the double-check early return, or by a propagated
exception from the guarded work — does not hold the per-key processing
lock. -/
theorem c7_lock_released_on_exit (gid : Int) (vid : String) {s0 s : SysState}
    (h0 : InitOk s0) (hr : SysReachable gid vid s0 s) :
    ∀ (i : Nat) (t : HTask), s.tasks[i]? = some t →
      t.phase.isExited = true → s.lock ≠ some i := by
  obtain ⟨⟨hlk1, _⟩, _⟩ := reachable_stepInvs gid vid h0 hr
  intro i t hti hex hlock
  obtain ⟨u, hu, hg⟩ := hlk1 i hlock
  rw [hti] at hu
  obtain rfl := Option.some.inj hu
  exact not_exited_and_inguard hex hg

/-- Witness for C7: a task whose guarded work raises at its first awaited
step; after the exception propagates, the lock is not held by it. -/
theorem c7_lock_released_on_exit_witness :
    InitOk cxInitC7 ∧
    execActs 0 "BV1xx411c7mD" cxInitC7 [.run 0, .run 0] = some cxFinalC7 ∧
    cxFinalC7.lock ≠ some 0 := by
  have h0 : InitOk cxInitC7 := ⟨rfl, rfl, by decide⟩
  have hexec : execActs 0 "BV1xx411c7mD" cxInitC7 [.run 0, .run 0]
      = some cxFinalC7 := by
    norm_num [execActs, sysStep, stepTask, acquireAndEnter, should_process_video,
      sweepExpired, mark_as_processed, dictGet, workFor, RATE_LIMIT_SECONDS,
      cxInitC7, cxFinalC7, List.filter, List.find?]
  refine ⟨h0, hexec, ?_⟩
  exact c7_lock_released_on_exit 0 "BV1xx411c7mD" h0 ⟨[.run 0, .run 0], hexec⟩
    0 ⟨.auto, some 0, .doneRaised 0⟩ (by norm_num [cxFinalC7]) rfl

/-- Claim C3: `mark_as_processed` runs at guarded-section entry, before the
metadata fetch and before any download step (they are the `WorkStep`s of the
model); consequently, for any reachable state and any invocation that is
inside the guarded section or has finished or raised, the key stays
suppressed (`should_process_video` returns `false`) for the full rate window
measured from that invocation's mark — including when the metadata fetch,
download, or upload raised. -/
theorem c3_mark_before_slow_work (gid : Int) (vid : String) {s0 s : SysState}
    (h0 : InitOk s0) (hr : SysReachable gid vid s0 s) :
    ∀ (i : Nat) (t : HTask), s.tasks[i]? = some t →
      ∀ tM, t.phase.markTime = some tM →
      s.now - tM < RATE_LIMIT_SECONDS →
      (should_process_video gid vid s.now s.table).1 = false := by
  obtain ⟨_, hmark⟩ := reachable_stepInvs gid vid h0 hr
  intro i t hti tM hmt hf
  obtain ⟨h1, h2⟩ := hmark i t hti tM hmt
  obtain ⟨tt, hg, h3, h4⟩ := h2 hf
  exact should_fst_false_of_fresh hg (by linarith)

/-- Witness for C3: a full-handler task that raised during the metadata
fetch (work step index 1); 100 s later the key is still suppressed. -/
theorem c3_mark_before_slow_work_witness :
    InitOk cxInitC3 ∧
    execActs 0 "BV1xx411c7mD" cxInitC3 [.run 0, .run 0, .run 0, .tick 100]
      = some cxFinalC3 ∧
    (should_process_video 0 "BV1xx411c7mD" cxFinalC3.now cxFinalC3.table).1
      = false := by
  have h0 : InitOk cxInitC3 := ⟨rfl, rfl, by decide⟩
  have hexec : execActs 0 "BV1xx411c7mD" cxInitC3
      [.run 0, .run 0, .run 0, .tick 100] = some cxFinalC3 := by
    norm_num [execActs, sysStep, stepTask, acquireAndEnter, should_process_video,
      sweepExpired, mark_as_processed, dictGet, workFor, RATE_LIMIT_SECONDS,
      cxInitC3, cxFinalC3, List.filter, List.find?]
  refine ⟨h0, hexec, ?_⟩
  exact c3_mark_before_slow_work 0 "BV1xx411c7mD" h0 ⟨_, hexec⟩ 0
    ⟨.full, some 1, .doneRaised 0⟩ (by norm_num [cxFinalC3]) 0 rfl
    (by norm_num [cxFinalC3, RATE_LIMIT_SECONDS])

end Resolver2
